import Mathlib

/-!
# Verification of the link2aws ARN parser and link dispatcher

A shallow embedding of the `link2aws` crate: strings are modelled as
`List Char`, the nom-based parser in `src/arn.rs` as total functions on
character lists, and the link dispatch table in `src/parts.rs` as a match
on the `(service, resource_type)` pair.
-/

namespace Link2Aws

/-- Strings are modelled as lists of characters. -/
abbrev Str := List Char

/-- Convert a Lean string literal into the model representation. -/
def str (s : String) : Str := s.toList

/-- Model of `Error` from `src/lib.rs`: the error kinds of the crate. -/
inductive Error where
  | TooLong
  | BadCharacters
  | ParseError
  | NoLink
  deriving DecidableEq, Repr

/-- Model of `Arn` from `src/arn.rs`: an ARN separated into its component parts. -/
structure Arn where
  partition : Str
  service : Str
  region : Str
  account : Str
  resource_type : Str
  resource_id : Str
  resource_revision : Str
  has_path : Bool
  deriving DecidableEq, Repr

/-! ## The nom combinators used by `mod parser` in `src/arn.rs` -/

/-- nom `take_till p`: split off the longest prefix whose characters all fail
`p`; never fails.  Returns (taken, remaining input). -/
def takeTill (p : Char → Bool) : Str → Str × Str
  | [] => ([], [])
  | c :: cs =>
    if p c then ([], c :: cs)
    else ((c :: (takeTill p cs).1), (takeTill p cs).2)

/-- Model of `terminated_by_colon`: `terminated(take_till(c == ':'), char(':'))`. -/
def terminatedByColon (s : Str) : Option (Str × Str) :=
  match takeTill (fun c => c == ':') s with
  | (pre, ':' :: rest) => some (pre, rest)
  | _ => none

/-- Model of `terminated_by_colon_not_slash`:
`terminated(take_till(c == ':' || c == '/'), char(':'))`. -/
def terminatedByColonNotSlash (s : Str) : Option (Str × Str) :=
  match takeTill (fun c => c == ':' || c == '/') s with
  | (pre, ':' :: rest) => some (pre, rest)
  | _ => none

/-- Model of `terminated_by_slash_not_colon`:
`terminated(take_till(c == ':' || c == '/'), char('/'))`. -/
def terminatedBySlashNotColon (s : Str) : Option (Str × Str) :=
  match takeTill (fun c => c == ':' || c == '/') s with
  | (pre, '/' :: rest) => some (pre, rest)
  | _ => none

/-- The result of one tail alternative:
(resource_type, resource_id, resource_revision, has_path). -/
abbrev TailParts := Str × Str × Str × Bool

/-- First tail alternative of `parser::parse`:
`resource-type/resource-id:resource-revision` (has path). -/
def altA (t : Str) : Option TailParts :=
  match terminatedBySlashNotColon t with
  | none => none
  | some (ty, r1) =>
    match terminatedByColonNotSlash r1 with
    | none => none
    | some (id, rev) => some (ty, id, rev, true)

/-- Second tail alternative of `parser::parse`:
`resource-type:resource-id` where the id takes the whole remainder. -/
def altB (t : Str) : Option TailParts :=
  match terminatedByColonNotSlash t with
  | none => none
  | some (ty, id) => some (ty, id, [], false)

/-- Model of `opt(char('/'))` of the source: consume a leading slash when present. -/
def optSlash (t : Str) : Str :=
  match t with
  | '/' :: r => r
  | _ => t

/-- Third tail alternative of `parser::parse`:
optional leading slash, then `resource-type/resource-id` (has path). -/
def altC (t : Str) : Option TailParts :=
  match terminatedBySlashNotColon (optSlash t) with
  | none => none
  | some (ty, id) => some (ty, id, [], true)

/-- Fourth tail alternative of `parser::parse`: the whole remainder is the
resource id, with empty type and revision.  It always succeeds. -/
def altD (t : Str) : TailParts := ([], t, [], false)

/-- The `alt((...))` over the four tail alternatives, in source order:
the first alternative that matches wins. -/
def parseTail (t : Str) : TailParts :=
  match altA t with
  | some r => r
  | none =>
    match altB t with
    | some r => r
    | none =>
      match altC t with
      | some r => r
      | none => altD t

/-- Model of `parser::parse` from `src/arn.rs`: the literal `arn:` prefix, four
colon-terminated fields, then the tail alternation.  Every alternative ends
in `rest`, so `all_consuming` is satisfied whenever the sequence parses. -/
def parse (s : Str) : Option Arn :=
  match s with
  | 'a' :: 'r' :: 'n' :: ':' :: s1 =>
    match terminatedByColon s1 with
    | none => none
    | some (p, s2) =>
      match terminatedByColon s2 with
      | none => none
      | some (sv, s3) =>
        match terminatedByColon s3 with
        | none => none
        | some (rg, s4) =>
          match terminatedByColon s4 with
          | none => none
          | some (ac, s5) =>
            match parseTail s5 with
            | (ty, id, rev, hp) =>
              some { partition := p, service := sv, region := rg, account := ac,
                     resource_type := ty, resource_id := id,
                     resource_revision := rev, has_path := hp }
  | _ => none

/-! ## `Arn::new` from `src/arn.rs` -/

/-- Rust `char::is_whitespace`: the Unicode `White_Space` property. -/
def isRustWhitespace (c : Char) : Bool :=
  (['\t', '\n', '\x0b', '\x0c', '\r', ' ', '\u0085', '\u00A0', '\u1680', '\u2000', '\u2001', '\u2002', '\u2003', '\u2004', '\u2005', '\u2006', '\u2007', '\u2008', '\u2009', '\u200A', '\u2028', '\u2029', '\u202F', '\u205F', '\u3000'] : Str).contains c

/-- Rust `str::trim`: remove leading and trailing whitespace. -/
def rustTrim (s : Str) : Str :=
  ((s.dropWhile isRustWhitespace).reverse.dropWhile isRustWhitespace).reverse

/-- Rust `str::len`: the length of a string in UTF-8 bytes. -/
def utf8Len (s : Str) : Nat := (s.map Char.utf8Size).sum

/-- Rust `char::is_ascii_alphanumeric`. -/
def isAsciiAlphanumeric (c : Char) : Bool :=
  ('a' ≤ c && c ≤ 'z') || ('A' ≤ c && c ≤ 'Z') || ('0' ≤ c && c ≤ '9')

/-- The character test of `Arn::new`: ASCII alphanumeric or one of the
allowed punctuation characters `:/+=,.@_*#-`. -/
def validChar (c : Char) : Bool :=
  isAsciiAlphanumeric c || (str ":/+=,.@_*#-").contains c

/-- The region test of `Arn::new`: ASCII alphanumeric or a hyphen. -/
def regionChar (c : Char) : Bool :=
  isAsciiAlphanumeric c || c == '-'

/-- Model of `Arn::new` from `src/arn.rs`: trim, length limit, character check,
structural parse, then the region format check, in this order. -/
def Arn.new (arnStr : Str) : Except Error Arn :=
  if 2048 < utf8Len (rustTrim arnStr) then .error .TooLong
  else if !((rustTrim arnStr).all validChar) then .error .BadCharacters
  else
    match parse (rustTrim arnStr) with
    | none => .error .ParseError
    | some arn =>
      if !(arn.region.all regionChar) then .error .BadCharacters
      else .ok arn

/-! ## `ArnParts::build` from `src/parts.rs` -/

/-- Model of `ArnParts::build`: convert the ARN parts back into an ARN string. -/
def Arn.build (a : Arn) : Str :=
  let colonBeforeType : Str := if !a.resource_type.isEmpty then str ":" else []
  let slashBeforeType : Str := if a.service = str "apigateway" then str "/" else []
  let delimBeforeId : Str := if a.has_path then str "/" else str ":"
  let colonBeforeRevision : Str := if !a.resource_revision.isEmpty then str ":" else []
  str "arn" ++ str ":" ++ a.partition ++ str ":" ++ a.service ++ str ":" ++
    a.region ++ str ":" ++ a.account ++ colonBeforeType ++ slashBeforeType ++
    a.resource_type ++ delimBeforeId ++ a.resource_id ++ colonBeforeRevision ++
    a.resource_revision

/-! ## String helpers used by the dispatch rules in `src/parts.rs` -/

/-- Rust `str::split_once(c)`: split at the first occurrence of `c`,
returning the parts before and after it. -/
def splitOnceChar (c : Char) : Str → Option (Str × Str)
  | [] => none
  | d :: s =>
    if d == c then some ([], s)
    else
      match splitOnceChar c s with
      | some (a, b) => some (d :: a, b)
      | none => none

/-- Rust `str::rsplit_once(c)`: split at the last occurrence of `c`,
returning the parts before and after it. -/
def rsplitOnceChar (c : Char) (s : Str) : Option (Str × Str) :=
  match splitOnceChar c s.reverse with
  | some (a, b) => some (b.reverse, a.reverse)
  | none => none

/-- Rust `str::split(c).collect()`: split at every occurrence of `c`;
always yields at least one (possibly empty) piece. -/
def splitOnChar (c : Char) : Str → List Str
  | [] => [[]]
  | d :: s =>
    if d == c then [] :: splitOnChar c s
    else
      match splitOnChar c s with
      | [] => [[d]]
      | a :: rest => (d :: a) :: rest

/-- Rust `str::contains(needle)` for a literal substring needle. -/
def containsSeq (needle : Str) : Str → Bool
  | [] => needle.isPrefixOf []
  | c :: s => needle.isPrefixOf (c :: s) || containsSeq needle s

/-- Rust `str::strip_suffix(sfx)`: remove the suffix when present. -/
def stripSuffixSeq (sfx s : Str) : Option Str :=
  if sfx.isSuffixOf s then some (s.take (s.length - sfx.length)) else none

/-- Rust `str::replace(needle, repl)`: replace every non-overlapping
occurrence of `needle`, scanning left to right.  Every needle passed by the
dispatch table is non-empty; on an empty needle this model returns the
string unchanged. -/
def replaceSeq (needle repl : Str) : Str → Str
  | [] => []
  | c :: s =>
    if h : needle ≠ [] ∧ needle.isPrefixOf (c :: s) then
      repl ++ replaceSeq needle repl ((c :: s).drop needle.length)
    else
      c :: replaceSeq needle repl s
  termination_by s => s.length
  decreasing_by
  · have hn : 0 < needle.length := List.length_pos.mpr h.1
    simp [List.length_drop]
    omega
  · simp

/-- Everything after the last slash of `s`; the whole of `s` when it has no
slash (Rust `s.rsplit('/').next().unwrap_or(s)`). -/
def lastSegmentAfterSlash (s : Str) : Str :=
  match rsplitOnceChar '/' s with
  | some (_, aft) => aft
  | none => s

/-! ## `ArnPartsHelper` from `src/parts.rs` -/

/-- Model of `ArnPartsHelper::domain`: the console domain for the partition, `none`
for an unknown partition. -/
def Arn.domain (a : Arn) : Option Str :=
  if a.partition = str "aws" then some (str "console.aws.amazon.com")
  else if a.partition = str "aws-cn" then some (str "console.amazonaws.cn")
  else if a.partition = str "aws-us-gov" then some (str "console.amazonaws-us-gov.com")
  else none

/-- Model of `ArnPartsHelper::path_last`: the last slash component of the resource id
when the ARN has a path, else the entire resource id. -/
def Arn.path_last (a : Arn) : Str :=
  if a.has_path then lastSegmentAfterSlash a.resource_id else a.resource_id

/-! ## `ArnParts::link` from `src/parts.rs` -/

/-- Model of `ArnParts::link`: the static dispatch table on the
`(service, resource_type)` pair.  The match of the source is modelled as
a chain of equality tests on the pair, in source order; all the
commented-out `=> None` arms of the source fall to the final `none`. -/
def Arn.link (a : Arn) : Option Str :=
  if a.service = str "access-analyzer" ∧ a.resource_type = str "analyzer" then do
    let d ← a.domain
    some (str "https://" ++ a.region ++ str "." ++ d ++
      str "/access-analyzer/home?region=" ++ a.region ++ str "#/analyzer/" ++
      a.resource_id)
  else if a.service = str "acm" ∧ a.resource_type = str "certificate" then do
    let d ← a.domain
    some (str "https://" ++ d ++ str "/acm/home?region=" ++ a.region ++
      str "#/?id=" ++ a.resource_id)
  else if a.service = str "amplify" ∧ a.resource_type = str "apps" then
    if containsSeq (str "/jobs/") a.resource_id then
      let resourceSplit := splitOnChar '/' a.resource_id
      if 4 ≤ resourceSplit.length then do
        let appId := resourceSplit.headI
        let branch := resourceSplit.getD 2 []
        let job := (resourceSplit.getLastD []).dropWhile (fun c => c == '0')
        let d ← a.domain
        some (str "https://" ++ a.region ++ str "." ++ d ++
          str "/amplify/home?region=" ++ a.region ++ str "#/" ++ appId ++
          str "/" ++ branch ++ str "/" ++ job)
      else none
    else none
  else if a.service = str "apigateway" ∧ a.resource_type = str "restapis" then do
    let d ← a.domain
    some (str "https://" ++ a.region ++ str "." ++ d ++
      str "/apigateway/main/apis/" ++ a.resource_id ++ str "/resources?api=" ++
      a.resource_id ++ str "&region=" ++ a.region)
  else if a.service = str "autoscaling" ∧ a.resource_type = str "autoScalingGroup" then do
    let d ← a.domain
    let groupName := ((splitOnceChar '/' a.resource_id).getD ([], [])).2
    some (str "https://" ++ a.region ++ str "." ++ d ++
      str "/ec2/home?region=" ++ a.region ++
      str "#AutoScalingGroupDetails:id=" ++ groupName ++ str ";view=details")
  else if a.service = str "backup" ∧ a.resource_type = str "backup-vault" then do
    let d ← a.domain
    some (str "https://" ++ d ++ str "/backup/home?region=" ++ a.region ++
      str "#/backupvaults/details/" ++ a.resource_id)
  else if a.service = str "cloudfront" ∧ a.resource_type = str "distribution" then do
    let d ← a.domain
    some (str "https://" ++ d ++ str "/cloudfront/v4/home#/distributions/" ++
      a.resource_id)
  else if a.service = str "codeconnections" ∧ a.resource_type = str "connection" then do
    let d ← a.domain
    some (str "https://" ++ a.region ++ str "." ++ d ++
      str "/codesuite/settings/" ++ a.account ++ str "/" ++ a.region ++
      str "/" ++ a.service ++ str "/" ++ a.resource_type ++ str "s/" ++
      a.resource_id)
  else if a.service = str "codepipeline" ∧ a.resource_type = str "" then do
    let d ← a.domain
    some (str "https://" ++ a.region ++ str "." ++ d ++
      str "/codesuite/codepipeline/pipelines/" ++ a.resource_id ++
      str "/view?region=" ++ a.region)
  else if a.service = str "codestar-connections" ∧ a.resource_type = str "connection" then do
    let d ← a.domain
    some (str "https://" ++ a.region ++ str "." ++ d ++
      str "/codesuite/settings/" ++ a.account ++ str "/" ++ a.region ++
      str "/" ++ a.service ++ str "/" ++ a.resource_type ++ str "s/" ++
      a.resource_id)
  else if a.service = str "dynamodb" ∧ a.resource_type = str "table" then do
    let d ← a.domain
    some (str "https://" ++ a.region ++ str "." ++ d ++
      str "/dynamodbv2/home?region=" ++ a.region ++ str "#table?name=" ++
      a.resource_id)
  else if a.service = str "ec2" ∧ a.resource_type = str "image" then do
    let d ← a.domain
    some (str "https://" ++ a.region ++ str "." ++ d ++
      str "/ec2/home?region=" ++ a.region ++ str "#ImageDetails:imageId=" ++
      a.resource_id)
  else if a.service = str "ec2" ∧ a.resource_type = str "instance" then do
    let d ← a.domain
    some (str "https://" ++ a.region ++ str "." ++ d ++
      str "/ec2/home?region=" ++ a.region ++
      str "#InstanceDetails:instanceId=" ++ a.resource_id)
  else if a.service = str "ec2" ∧ a.resource_type = str "launch-template" then do
    let d ← a.domain
    some (str "https://" ++ a.region ++ str "." ++ d ++
      str "/ec2/home?region=" ++ a.region ++
      str "#LaunchTemplateDetails:launchTemplateId=" ++ a.resource_id)
  else if a.service = str "ec2" ∧ a.resource_type = str "natgateway" then do
    let d ← a.domain
    some (str "https://" ++ a.region ++ str "." ++ d ++
      str "/vpcconsole/home?region=" ++ a.region ++
      str "#NatGatewayDetails:natGatewayId=" ++ a.resource_id)
  else if a.service = str "ec2" ∧ a.resource_type = str "security-group" then do
    let d ← a.domain
    some (str "https://" ++ a.region ++ str "." ++ d ++
      str "/vpc/home?region=" ++ a.region ++ str "#SecurityGroup:groupId=" ++
      a.resource_id)
  else if a.service = str "ec2" ∧ a.resource_type = str "snapshot" then do
    let d ← a.domain
    some (str "https://" ++ a.region ++ str "." ++ d ++
      str "/ec2/home?region=" ++ a.region ++
      str "#SnapshotDetails:snapshotId=" ++ a.resource_id)
  else if a.service = str "ec2" ∧ a.resource_type = str "subnet" then do
    let d ← a.domain
    some (str "https://" ++ a.region ++ str "." ++ d ++
      str "/vpc/home?region=" ++ a.region ++ str "#SubnetDetails:subnetId=" ++
      a.resource_id)
  else if a.service = str "ec2" ∧ a.resource_type = str "volume" then do
    let d ← a.domain
    some (str "https://" ++ a.region ++ str "." ++ d ++
      str "/ec2/home?region=" ++ a.region ++ str "#VolumeDetails:volumeId=" ++
      a.resource_id)
  else if a.service = str "ec2" ∧ a.resource_type = str "vpc" then do
    let d ← a.domain
    some (str "https://" ++ a.region ++ str "." ++ d ++
      str "/vpc/home?region=" ++ a.region ++ str "#VpcDetails:VpcId=" ++
      a.resource_id)
  else if a.service = str "ec2" ∧ a.resource_type = str "vpc-endpoint" then do
    let d ← a.domain
    some (str "https://" ++ a.region ++ str "." ++ d ++
      str "/vpcconsole/home?region=" ++ a.region ++
      str "#EndpointDetails:vpcEndpointId=" ++ a.resource_id)
  else if a.service = str "ecs" ∧ a.resource_type = str "cluster" then do
    let d ← a.domain
    some (str "https://" ++ a.region ++ str "." ++ d ++
      str "/ecs/v2/clusters/" ++ a.resource_id ++ str "?region=" ++ a.region)
  else if a.service = str "ecs" ∧ a.resource_type = str "service" then
    let pair := (rsplitOnceChar '/' a.resource_id).getD ([], [])
    do
      let d ← a.domain
      some (str "https://" ++ a.region ++ str "." ++ d ++
        str "/ecs/v2/clusters/" ++ pair.1 ++ str "/services/" ++ pair.2 ++
        str "?region=" ++ a.region)
  else if a.service = str "ecs" ∧ a.resource_type = str "task" then
    let pair := (rsplitOnceChar '/' a.resource_id).getD ([], [])
    do
      let d ← a.domain
      some (str "https://" ++ a.region ++ str "." ++ d ++
        str "/ecs/v2/clusters/" ++ pair.1 ++ str "/tasks/" ++ pair.2 ++
        str "?region=" ++ a.region)
  else if a.service = str "ecs" ∧ a.resource_type = str "task-definition" then do
    let d ← a.domain
    some (str "https://" ++ a.region ++ str "." ++ d ++
      str "/ecs/v2/task-definitions/" ++ a.resource_id ++ str "/" ++
      a.resource_revision ++ str "?region=" ++ a.region)
  else if a.service = str "eks" ∧ a.resource_type = str "cluster" then do
    let d ← a.domain
    some (str "https://" ++ d ++ str "/eks/home?region=" ++ a.region ++
      str "#/clusters/" ++ a.resource_id)
  else if a.service = str "eks" ∧ a.resource_type = str "nodegroup" then
    match splitOnChar '/' a.resource_id with
    | clusterName :: nodegroupName :: _ => do
      let d ← a.domain
      some (str "https://" ++ d ++ str "/eks/home?region=" ++ a.region ++
        str "#/clusters/" ++ clusterName ++ str "/nodegroups/" ++
        nodegroupName)
    | _ => none
  else if a.service = str "elasticloadbalancing" ∧ a.resource_type = str "loadbalancer" then do
    let d ← a.domain
    some (str "https://" ++ a.region ++ str "." ++ d ++
      str "/ec2/home?region=" ++ a.region ++
      str "#LoadBalancer:loadBalancerArn=" ++ a.build)
  else if a.service = str "firehose" ∧ a.resource_type = str "deliverystream" then do
    let d ← a.domain
    some (str "https://" ++ d ++ str "/firehose/home?region=" ++ a.region ++
      str "#/details/" ++ a.resource_id ++ str "/monitoring")
  else if a.service = str "iam" ∧ a.resource_type = str "group" then do
    let d ← a.domain
    some (str "https://" ++ d ++ str "/iamv2/home#/groups/details/" ++
      a.path_last)
  else if a.service = str "iam" ∧ a.resource_type = str "oidc-provider" then do
    let d ← a.domain
    some (str "https://" ++ d ++ str "/iam/home?#/providers/" ++ a.build)
  else if a.service = str "iam" ∧ a.resource_type = str "policy" then do
    let d ← a.domain
    some (str "https://" ++ d ++ str "/iam/home?#/policies/" ++ a.build)
  else if a.service = str "iam" ∧ a.resource_type = str "role" then do
    let d ← a.domain
    some (str "https://" ++ d ++ str "/iam/home?#/roles/" ++ a.path_last)
  else if a.service = str "iam" ∧ a.resource_type = str "user" then do
    let d ← a.domain
    some (str "https://" ++ d ++ str "/iam/home?#/users/" ++ a.resource_id)
  else if a.service = str "kms" ∧ a.resource_type = str "key" then do
    let d ← a.domain
    some (str "https://" ++ d ++ str "/kms/home?region=" ++ a.region ++
      str "#/kms/keys/" ++ a.resource_id)
  else if a.service = str "lambda" ∧ a.resource_type = str "function" then do
    let d ← a.domain
    some (str "https://" ++ a.region ++ str "." ++ d ++
      str "/lambda/home?region=" ++ a.region ++ str "#/functions/" ++
      a.resource_id)
  else if a.service = str "lambda" ∧ a.resource_type = str "layer" then
    let pair :=
      match splitOnceChar ':' a.resource_id with
      | some (q0, []) => (q0, str "1")
      | some (q0, q1) => (q0, q1)
      | none => (a.resource_id, str "1")
    do
      let d ← a.domain
      some (str "https://" ++ a.region ++ str "." ++ d ++
        str "/lambda/home?region=" ++ a.region ++ str "#/layers/" ++ pair.1 ++
        str "/versions/" ++ pair.2)
  else if a.service = str "logs" ∧ a.resource_type = str "log-group" then do
    let d ← a.domain
    let stripped ← stripSuffixSeq (str ":*") a.resource_id
    let resource :=
      replaceSeq (str "/") (str "$252F")
        (replaceSeq (str "#") (str "$2523")
          (replaceSeq (str ":") (str "$3A") stripped))
    some (str "https://" ++ a.region ++ str "." ++ d ++
      str "/cloudwatch/home?region=" ++ a.region ++
      str "#logsV2:log-groups/log-group/" ++ resource)
  else if a.service = str "medialive" ∧ a.resource_type = str "channel" then do
    let d ← a.domain
    some (str "https://" ++ a.region ++ str "." ++ d ++
      str "/medialive/home?region=" ++ a.region ++ str "#/channels/" ++
      a.resource_id)
  else if a.service = str "rds" ∧ a.resource_type = str "cluster" then do
    let d ← a.domain
    some (str "https://" ++ d ++ str "/rds/home?region=" ++ a.region ++
      str "#database:id=" ++ a.resource_id ++ str ";is-cluster=true")
  else if a.service = str "rds" ∧ a.resource_type = str "db" then do
    let d ← a.domain
    some (str "https://" ++ d ++ str "/rds/home?region=" ++ a.region ++
      str "#database:id=" ++ a.resource_id)
  else if a.service = str "rds" ∧ a.resource_type = str "og" then do
    let d ← a.domain
    some (str "https://" ++ d ++ str "/rds/home?region=" ++ a.region ++
      str "#option-group-details:option-group-name=" ++ a.resource_id)
  else if a.service = str "rds" ∧ a.resource_type = str "snapshot" then do
    let d ← a.domain
    some (str "https://" ++ d ++ str "/rds/home?region=" ++ a.region ++
      str "#db-snapshot:id=" ++ a.resource_id)
  else if a.service = str "rds" ∧ a.resource_type = str "subgrp" then do
    let d ← a.domain
    some (str "https://" ++ d ++ str "/rds/home?region=" ++ a.region ++
      str "#db-subnet-group:id=" ++ a.resource_id)
  else if a.service = str "route53" ∧ a.resource_type = str "healthcheck" then do
    let d ← a.domain
    some (str "https://" ++ d ++ str "/route53/healthchecks/home")
  else if a.service = str "route53" ∧ a.resource_type = str "hostedzone" then do
    let d ← a.domain
    some (str "https://" ++ d ++ str "/route53/home?#resource-record-sets:" ++
      a.resource_id)
  else if a.service = str "route53" ∧ a.resource_type = str "trafficpolicy" then do
    let d ← a.domain
    some (str "https://" ++ d ++ str "/route53/trafficflow/home#/policy/" ++
      a.resource_id)
  else if a.service = str "route53" ∧ a.resource_type = str "trafficpolicyinstance" then do
    let d ← a.domain
    some (str "https://" ++ d ++
      str "/route53/trafficflow/home#/modify-records/edit/" ++ a.resource_id)
  else if a.service = str "s3" ∧ a.resource_type = str "" then do
    let d ← a.domain
    some (str "https://s3." ++ d ++ str "/s3/buckets/" ++ a.resource_id)
  else if a.service = str "secretsmanager" ∧ a.resource_type = str "secret" then
    match rsplitOnceChar '-' a.resource_id with
    | some (name, sfx) =>
      if utf8Len sfx == 6 then do
        let d ← a.domain
        some (str "https://" ++ a.region ++ str "." ++ d ++ str "/" ++
          a.service ++ str "/secret?name=" ++ name)
      else none
    | none => none
  else if a.service = str "sns" ∧ a.resource_type = str "" then do
    let d ← a.domain
    some (str "https://" ++ d ++ str "/sns/v3/home?region=" ++ a.region ++
      str "#/topic/" ++ a.build)
  else if a.service = str "sqs" ∧ a.resource_type = str "" then do
    let d ← a.domain
    some (str "https://" ++ a.region ++ str "." ++ d ++
      str "/sqs/v2/home?region=" ++ a.region ++
      str "#/queues/https%3A%2F%2Fsqs." ++ a.region ++
      str ".amazonaws.com%2F" ++ a.account ++ str "%2F" ++ a.resource_id)
  else if a.service = str "states" ∧ a.resource_type = str "execution" then do
    let d ← a.domain
    some (str "https://" ++ a.region ++ str "." ++ d ++
      str "/states/home?region=" ++ a.region ++
      str "#/v2/executions/details/" ++ a.build)
  else if a.service = str "states" ∧ a.resource_type = str "stateMachine" then do
    let d ← a.domain
    some (str "https://" ++ a.region ++ str "." ++ d ++
      str "/states/home?region=" ++ a.region ++ str "#/statemachines/view/" ++
      a.build)
  else if a.service = str "wafv2" ∧ a.resource_type = str "global" then do
    let d ← a.domain
    some (str "https://" ++ d ++ str "/wafv2/homev2/web-acl/" ++
      replaceSeq (str "webacl/") [] a.resource_id ++
      str "/overview?region=global")
  else if a.service = str "wafv2" ∧ a.resource_type = str "regional" then do
    let d ← a.domain
    some (str "https://" ++ d ++ str "/wafv2/homev2/web-acl/" ++
      replaceSeq (str "webacl/") [] a.resource_id ++
      str "/overview?region=" ++ a.region)
  else none
/-- Model of `arn_to_link` from `src/lib.rs`: parse, then link, mapping the no-link
outcome to the `NoLink` error at this outer layer only. -/
def arnToLink (s : Str) : Except Error Str :=
  match Arn.new s with
  | .error e => .error e
  | .ok a =>
    match a.link with
    | some l => .ok l
    | none => .error .NoLink

/-- The `(service, resource_type)` pairs that have an entry (an uncommented
arm) in the dispatch table of `ArnParts::link`. -/
def dispatchKeys : List (Str × Str) :=
  [(str "access-analyzer", str "analyzer"),
   (str "acm", str "certificate"),
   (str "amplify", str "apps"),
   (str "apigateway", str "restapis"),
   (str "autoscaling", str "autoScalingGroup"),
   (str "backup", str "backup-vault"),
   (str "cloudfront", str "distribution"),
   (str "codeconnections", str "connection"),
   (str "codepipeline", str ""),
   (str "codestar-connections", str "connection"),
   (str "dynamodb", str "table"),
   (str "ec2", str "image"),
   (str "ec2", str "instance"),
   (str "ec2", str "launch-template"),
   (str "ec2", str "natgateway"),
   (str "ec2", str "security-group"),
   (str "ec2", str "snapshot"),
   (str "ec2", str "subnet"),
   (str "ec2", str "volume"),
   (str "ec2", str "vpc"),
   (str "ec2", str "vpc-endpoint"),
   (str "ecs", str "cluster"),
   (str "ecs", str "service"),
   (str "ecs", str "task"),
   (str "ecs", str "task-definition"),
   (str "eks", str "cluster"),
   (str "eks", str "nodegroup"),
   (str "elasticloadbalancing", str "loadbalancer"),
   (str "firehose", str "deliverystream"),
   (str "iam", str "group"),
   (str "iam", str "oidc-provider"),
   (str "iam", str "policy"),
   (str "iam", str "role"),
   (str "iam", str "user"),
   (str "kms", str "key"),
   (str "lambda", str "function"),
   (str "lambda", str "layer"),
   (str "logs", str "log-group"),
   (str "medialive", str "channel"),
   (str "rds", str "cluster"),
   (str "rds", str "db"),
   (str "rds", str "og"),
   (str "rds", str "snapshot"),
   (str "rds", str "subgrp"),
   (str "route53", str "healthcheck"),
   (str "route53", str "hostedzone"),
   (str "route53", str "trafficpolicy"),
   (str "route53", str "trafficpolicyinstance"),
   (str "s3", str ""),
   (str "secretsmanager", str "secret"),
   (str "sns", str ""),
   (str "sqs", str ""),
   (str "states", str "execution"),
   (str "states", str "stateMachine"),
   (str "wafv2", str "global"),
   (str "wafv2", str "regional")]

/-! ## Lemmas about `takeTill` -/

theorem takeTill_append (p : Char → Bool) (s : Str) :
    (takeTill p s).1 ++ (takeTill p s).2 = s := by
  induction s with
  | nil => simp [takeTill]
  | cons c cs ih =>
    by_cases h : p c
    · simp [takeTill, h]
    · simp [takeTill, h, ih]

theorem takeTill_not_mem (p : Char → Bool) (s : Str) :
    ∀ c ∈ (takeTill p s).1, p c = false := by
  induction s with
  | nil => simp [takeTill]
  | cons c cs ih =>
    by_cases h : p c
    · simp [takeTill, h]
    · simp only [takeTill, h, if_neg, Bool.false_eq_true, not_false_iff,
        if_false, List.mem_cons]
      rintro d (rfl | hd)
      · simpa using h
      · exact ih d hd

theorem takeTill_snd_head (p : Char → Bool) (s : Str) (c : Char) (r : Str)
    (h : (takeTill p s).2 = c :: r) : p c = true := by
  induction s with
  | nil => simp [takeTill] at h
  | cons d ds ih =>
    by_cases hd : p d
    · simp only [takeTill, if_pos hd] at h
      obtain ⟨rfl, rfl⟩ := (List.cons.injEq d ds c r).mp h
      exact hd
    · simp only [takeTill, hd, Bool.false_eq_true, not_false_iff, if_false] at h
      exact ih h

theorem takeTill_append_cons (p : Char → Bool) {t : Str} (c : Char) (r : Str)
    (ht : ∀ d ∈ t, p d = false) (hc : p c = true) :
    takeTill p (t ++ c :: r) = (t, c :: r) := by
  induction t with
  | nil => simp [takeTill, hc]
  | cons d ds ih =>
    have hd : p d = false := ht d (by simp)
    have ih2 := ih (fun e he => ht e (by simp [he]))
    simp [takeTill, hd, ih2]

theorem takeTill_eq_self (p : Char → Bool) {t : Str}
    (ht : ∀ d ∈ t, p d = false) : takeTill p t = (t, []) := by
  induction t with
  | nil => simp [takeTill]
  | cons d ds ih =>
    have hd : p d = false := ht d (by simp)
    have ih2 := ih (fun e he => ht e (by simp [he]))
    simp [takeTill, hd, ih2]

/-! ## Characterizations of the three terminated combinators -/

theorem terminatedByColon_eq_some {s pre rest : Str} :
    terminatedByColon s = some (pre, rest) ↔
      s = pre ++ ':' :: rest ∧ ':' ∉ pre := by
  constructor
  · intro h
    unfold terminatedByColon at h
    split at h
    · rename_i pre2 rest2 heq
      obtain ⟨rfl, rfl⟩ := Prod.mk.injEq pre rest pre2 rest2 ▸
        (Option.some.injEq _ _).mp h.symm
      constructor
      · have := takeTill_append (fun c => c == ':') s
        rw [heq] at this
        exact this.symm
      · intro hmem
        have := takeTill_not_mem (fun c => c == ':') s ':'
          (by rw [heq]; exact hmem)
        simp at this
    · exact absurd h (by simp)
  · rintro ⟨rfl, hpre⟩
    unfold terminatedByColon
    rw [takeTill_append_cons (fun c => c == ':') ':' rest
      (fun d hd => by
        simp only [beq_eq_false_iff_ne]
        rintro rfl
        exact hpre hd) (by simp)]
    rfl

theorem terminatedByColonNotSlash_eq_some {s pre rest : Str} :
    terminatedByColonNotSlash s = some (pre, rest) ↔
      s = pre ++ ':' :: rest ∧ ∀ c ∈ pre, c ≠ ':' ∧ c ≠ '/' := by
  constructor
  · intro h
    unfold terminatedByColonNotSlash at h
    split at h
    · rename_i pre2 rest2 heq
      obtain ⟨rfl, rfl⟩ := Prod.mk.injEq pre rest pre2 rest2 ▸
        (Option.some.injEq _ _).mp h.symm
      constructor
      · have := takeTill_append (fun c => c == ':' || c == '/') s
        rw [heq] at this
        exact this.symm
      · intro c hc
        have := takeTill_not_mem (fun c => c == ':' || c == '/') s c
          (by rw [heq]; exact hc)
        simpa using this
    · exact absurd h (by simp)
  · rintro ⟨rfl, hpre⟩
    unfold terminatedByColonNotSlash
    rw [takeTill_append_cons (fun c => c == ':' || c == '/') ':' rest
      (fun d hd => by simpa using hpre d hd) (by simp)]
    rfl

theorem terminatedBySlashNotColon_eq_some {s pre rest : Str} :
    terminatedBySlashNotColon s = some (pre, rest) ↔
      s = pre ++ '/' :: rest ∧ ∀ c ∈ pre, c ≠ ':' ∧ c ≠ '/' := by
  constructor
  · intro h
    unfold terminatedBySlashNotColon at h
    split at h
    · rename_i pre2 rest2 heq
      obtain ⟨rfl, rfl⟩ := Prod.mk.injEq pre rest pre2 rest2 ▸
        (Option.some.injEq _ _).mp h.symm
      constructor
      · have := takeTill_append (fun c => c == ':' || c == '/') s
        rw [heq] at this
        exact this.symm
      · intro c hc
        have := takeTill_not_mem (fun c => c == ':' || c == '/') s c
          (by rw [heq]; exact hc)
        simpa using this
    · exact absurd h (by simp)
  · rintro ⟨rfl, hpre⟩
    unfold terminatedBySlashNotColon
    rw [takeTill_append_cons (fun c => c == ':' || c == '/') '/' rest
      (fun d hd => by simpa using hpre d hd) (by simp)]
    rfl

/-! ## Characterizations of the four tail alternatives -/

theorem altA_eq_some {t : Str} {r : TailParts} (h : altA t = some r) :
    ∃ ty id rev, r = (ty, id, rev, true) ∧
      t = ty ++ '/' :: (id ++ ':' :: rev) ∧
      (∀ c ∈ ty, c ≠ ':' ∧ c ≠ '/') ∧ (∀ c ∈ id, c ≠ ':' ∧ c ≠ '/') := by
  unfold altA at h
  cases hA : terminatedBySlashNotColon t with
  | none => simp only [hA] at h; exact absurd h (by simp)
  | some pr =>
    obtain ⟨ty, r1⟩ := pr
    simp only [hA] at h
    cases hB : terminatedByColonNotSlash r1 with
    | none => simp only [hB] at h; exact absurd h (by simp)
    | some pr2 =>
      obtain ⟨id, rev⟩ := pr2
      simp only [hB] at h
      obtain ⟨h1, h2⟩ := terminatedBySlashNotColon_eq_some.mp hA
      obtain ⟨h3, h4⟩ := terminatedByColonNotSlash_eq_some.mp hB
      refine ⟨ty, id, rev, ?_, ?_, h2, h4⟩
      · simpa using h.symm
      · rw [h1, h3]

theorem altA_construct {ty id rev : Str}
    (hty : ∀ c ∈ ty, c ≠ ':' ∧ c ≠ '/') (hid : ∀ c ∈ id, c ≠ ':' ∧ c ≠ '/') :
    altA (ty ++ '/' :: (id ++ ':' :: rev)) = some (ty, id, rev, true) := by
  have h1 : terminatedBySlashNotColon (ty ++ '/' :: (id ++ ':' :: rev)) =
      some (ty, id ++ ':' :: rev) :=
    terminatedBySlashNotColon_eq_some.mpr ⟨rfl, hty⟩
  have h2 : terminatedByColonNotSlash (id ++ ':' :: rev) = some (id, rev) :=
    terminatedByColonNotSlash_eq_some.mpr ⟨rfl, hid⟩
  simp only [altA, h1, h2]

theorem terminatedBySlashNotColon_none_of_colon {ty rest : Str}
    (hty : ∀ c ∈ ty, c ≠ ':' ∧ c ≠ '/') :
    terminatedBySlashNotColon (ty ++ ':' :: rest) = none := by
  unfold terminatedBySlashNotColon
  rw [takeTill_append_cons (fun c => c == ':' || c == '/') ':' rest
    (fun d hd => by simpa using hty d hd) (by simp)]
  rfl

theorem altA_none_of_colon {ty rest : Str}
    (hty : ∀ c ∈ ty, c ≠ ':' ∧ c ≠ '/') :
    altA (ty ++ ':' :: rest) = none := by
  simp only [altA, terminatedBySlashNotColon_none_of_colon hty]

theorem altA_none_of_snd_fail {ty id : Str}
    (hty : ∀ c ∈ ty, c ≠ ':' ∧ c ≠ '/')
    (hid : terminatedByColonNotSlash id = none) :
    altA (ty ++ '/' :: id) = none := by
  have h1 : terminatedBySlashNotColon (ty ++ '/' :: id) = some (ty, id) :=
    terminatedBySlashNotColon_eq_some.mpr ⟨rfl, hty⟩
  simp only [altA, h1, hid]

theorem altB_eq_some {t : Str} {r : TailParts} (h : altB t = some r) :
    ∃ ty id, r = (ty, id, [], false) ∧ t = ty ++ ':' :: id ∧
      (∀ c ∈ ty, c ≠ ':' ∧ c ≠ '/') := by
  unfold altB at h
  cases hB : terminatedByColonNotSlash t with
  | none => simp only [hB] at h; exact absurd h (by simp)
  | some pr =>
    obtain ⟨ty, id⟩ := pr
    simp only [hB] at h
    obtain ⟨h1, h2⟩ := terminatedByColonNotSlash_eq_some.mp hB
    exact ⟨ty, id, by simpa using h.symm, h1, h2⟩

theorem altB_construct {ty id : Str} (hty : ∀ c ∈ ty, c ≠ ':' ∧ c ≠ '/') :
    altB (ty ++ ':' :: id) = some (ty, id, [], false) := by
  unfold altB
  rw [terminatedByColonNotSlash_eq_some.mpr ⟨rfl, hty⟩]

theorem terminatedByColonNotSlash_none_of_slash {ty rest : Str}
    (hty : ∀ c ∈ ty, c ≠ ':' ∧ c ≠ '/') :
    terminatedByColonNotSlash (ty ++ '/' :: rest) = none := by
  unfold terminatedByColonNotSlash
  rw [takeTill_append_cons (fun c => c == ':' || c == '/') '/' rest
    (fun d hd => by simpa using hty d hd) (by simp)]
  rfl

theorem altB_none_of_slash {ty rest : Str}
    (hty : ∀ c ∈ ty, c ≠ ':' ∧ c ≠ '/') :
    altB (ty ++ '/' :: rest) = none := by
  simp only [altB, terminatedByColonNotSlash_none_of_slash hty]

theorem optSlash_of_ne {c : Char} (h : c ≠ '/') (r : Str) :
    optSlash (c :: r) = c :: r := by
  unfold optSlash
  split
  · rename_i heq
    obtain ⟨rfl, rfl⟩ := (List.cons.injEq _ _ _ _).mp heq
    exact absurd rfl h
  · rfl

theorem altC_eq_some {t : Str} {r : TailParts} (h : altC t = some r) :
    ∃ ty id, r = (ty, id, [], true) ∧ optSlash t = ty ++ '/' :: id ∧
      (∀ c ∈ ty, c ≠ ':' ∧ c ≠ '/') := by
  unfold altC at h
  cases hC : terminatedBySlashNotColon (optSlash t) with
  | none => simp only [hC] at h; exact absurd h (by simp)
  | some pr =>
    obtain ⟨ty, id⟩ := pr
    simp only [hC] at h
    obtain ⟨h1, h2⟩ := terminatedBySlashNotColon_eq_some.mp hC
    exact ⟨ty, id, by simpa using h.symm, h1, h2⟩

theorem altC_construct_no_slash {c : Char} {ty2 id : Str} (hc : c ≠ '/')
    (hty : ∀ d ∈ c :: ty2, d ≠ ':' ∧ d ≠ '/') :
    altC ((c :: ty2) ++ '/' :: id) = some (c :: ty2, id, [], true) := by
  unfold altC
  rw [show optSlash ((c :: ty2) ++ '/' :: id) = (c :: ty2) ++ '/' :: id from
    optSlash_of_ne hc _,
    terminatedBySlashNotColon_eq_some.mpr ⟨rfl, hty⟩]

theorem parseTail_inv {t ty id rev : Str} {hb : Bool}
    (h : parseTail t = (ty, id, rev, hb)) :
    (∀ c ∈ ty, c ≠ ':' ∧ c ≠ '/') ∧
    (rev ≠ [] → hb = true ∧ ∀ c ∈ id, c ≠ ':' ∧ c ≠ '/') ∧
    (hb = false → rev = []) := by
  unfold parseTail at h
  cases hA : altA t with
  | some rA =>
    simp only [hA] at h
    obtain ⟨ty2, id2, rev2, hr, _, hty, hid⟩ := altA_eq_some hA
    simp only [hr] at h
    obtain ⟨rfl, rfl, rfl, rfl⟩ := Prod.mk.injEq _ _ _ _ ▸ (by
      simpa using h : (ty2, id2, rev2, true) = (ty, id, rev, hb))
    exact ⟨hty, fun _ => ⟨rfl, hid⟩, by simp⟩
  | none =>
    simp only [hA] at h
    cases hB : altB t with
    | some rB =>
      simp only [hB] at h
      obtain ⟨ty2, id2, hr, _, hty⟩ := altB_eq_some hB
      simp only [hr] at h
      obtain ⟨rfl, rfl, rfl, rfl⟩ := Prod.mk.injEq _ _ _ _ ▸ (by
        simpa using h : (ty2, id2, ([] : Str), false) = (ty, id, rev, hb))
      exact ⟨hty, by simp, by simp⟩
    | none =>
      simp only [hB] at h
      cases hC : altC t with
      | some rC =>
        simp only [hC] at h
        obtain ⟨ty2, id2, hr, _, hty⟩ := altC_eq_some hC
        simp only [hr] at h
        obtain ⟨rfl, rfl, rfl, rfl⟩ := Prod.mk.injEq _ _ _ _ ▸ (by
          simpa using h : (ty2, id2, ([] : Str), true) = (ty, id, rev, hb))
        exact ⟨hty, by simp, by simp⟩
      | none =>
        simp only [hC] at h
        obtain ⟨rfl, rfl, rfl, rfl⟩ := Prod.mk.injEq _ _ _ _ ▸ (by
          simpa [altD] using h : (([] : Str), t, ([] : Str), false) = (ty, id, rev, hb))
        exact ⟨by simp, by simp, by simp⟩

/-! ## Decomposition of `parse` -/

/-- The shape of every input accepted by `parse`: the literal `arn:` prefix,
four colon-terminated fields, then the tail. -/
def arnString (p sv rg ac t : Str) : Str :=
  'a' :: 'r' :: 'n' :: ':' ::
    (p ++ ':' :: (sv ++ ':' :: (rg ++ ':' :: (ac ++ ':' :: t))))

theorem parse_construct {p sv rg ac t ty id rev : Str} {hb : Bool}
    (hpt : parseTail t = (ty, id, rev, hb))
    (hp : ':' ∉ p) (hsv : ':' ∉ sv) (hrg : ':' ∉ rg) (hac : ':' ∉ ac) :
    parse (arnString p sv rg ac t) =
      some { partition := p, service := sv, region := rg, account := ac,
             resource_type := ty, resource_id := id,
             resource_revision := rev, has_path := hb } := by
  have h1 : terminatedByColon
      (p ++ ':' :: (sv ++ ':' :: (rg ++ ':' :: (ac ++ ':' :: t)))) =
      some (p, sv ++ ':' :: (rg ++ ':' :: (ac ++ ':' :: t))) :=
    terminatedByColon_eq_some.mpr ⟨rfl, hp⟩
  have h2 : terminatedByColon (sv ++ ':' :: (rg ++ ':' :: (ac ++ ':' :: t))) =
      some (sv, rg ++ ':' :: (ac ++ ':' :: t)) :=
    terminatedByColon_eq_some.mpr ⟨rfl, hsv⟩
  have h3 : terminatedByColon (rg ++ ':' :: (ac ++ ':' :: t)) =
      some (rg, ac ++ ':' :: t) :=
    terminatedByColon_eq_some.mpr ⟨rfl, hrg⟩
  have h4 : terminatedByColon (ac ++ ':' :: t) = some (ac, t) :=
    terminatedByColon_eq_some.mpr ⟨rfl, hac⟩
  simp only [arnString, parse, h1, h2, h3, h4, hpt]

theorem parse_inv {s : Str} {I : Arn} (h : parse s = some I) :
    ∃ t, s = arnString I.partition I.service I.region I.account t ∧
      ':' ∉ I.partition ∧ ':' ∉ I.service ∧ ':' ∉ I.region ∧
      ':' ∉ I.account ∧
      parseTail t = (I.resource_type, I.resource_id, I.resource_revision,
        I.has_path) := by
  unfold parse at h
  split at h
  · rename_i s1
    cases h1 : terminatedByColon s1 with
    | none =>
      simp only [h1] at h
      exact absurd h (by simp)
    | some pr1 =>
      obtain ⟨p, s2⟩ := pr1
      simp only [h1] at h
      cases h2 : terminatedByColon s2 with
      | none =>
      simp only [h2] at h
      exact absurd h (by simp)
      | some pr2 =>
        obtain ⟨sv, s3⟩ := pr2
        simp only [h2] at h
        cases h3 : terminatedByColon s3 with
        | none =>
      simp only [h3] at h
      exact absurd h (by simp)
        | some pr3 =>
          obtain ⟨rg, s4⟩ := pr3
          simp only [h3] at h
          cases h4 : terminatedByColon s4 with
          | none =>
      simp only [h4] at h
      exact absurd h (by simp)
          | some pr4 =>
            obtain ⟨ac, s5⟩ := pr4
            simp only [h4] at h
            rcases hpt : parseTail s5 with ⟨ty, id, rev, hb⟩
            simp only [hpt] at h
            obtain rfl := (Option.some.injEq _ _).mp h
            obtain ⟨e1, m1⟩ := terminatedByColon_eq_some.mp h1
            obtain ⟨e2, m2⟩ := terminatedByColon_eq_some.mp h2
            obtain ⟨e3, m3⟩ := terminatedByColon_eq_some.mp h3
            obtain ⟨e4, m4⟩ := terminatedByColon_eq_some.mp h4
            exact ⟨s5, by rw [arnString, ← e4, ← e3, ← e2, ← e1],
              m1, m2, m3, m4, hpt⟩
  · exact absurd h (by simp)

/-! ## The round-trip law -/

/-- C1 (amended): for every input accepted by the structural parser yielding
record `a`, rebuilding with `build` and re-parsing returns `a` field for
field, provided (i) the service is not the special-cased `apigateway`,
(ii) it is not the case that `has_path` holds with an empty resource type,
(iii) when both resource type and path flag are absent, the resource id
re-parses under the fallback tail form, and (iv) when `has_path` holds with
an empty revision, the resource id does not contain a colon before its
first slash.  Each proviso is necessary: dropping any one of them admits a
counterexample. -/
theorem c1_round_trip (s : Str) (a : Arn) (hparse : parse s = some a)
    (hapi : a.service ≠ str "apigateway")
    (htyhp : ¬(a.has_path = true ∧ a.resource_type = []))
    (hD : a.resource_type = [] → a.has_path = false →
      parseTail a.resource_id = ([], a.resource_id, [], false))
    (hA2 : a.has_path = true → a.resource_revision = [] →
      terminatedByColonNotSlash a.resource_id = none) :
    parse a.build = some a := by
  obtain ⟨t, -, m1, m2, m3, m4, hpeq⟩ := parse_inv hparse
  obtain ⟨htyp, hrevp, hnop⟩ := parseTail_inv hpeq
  have hapi2 : ¬a.service = ['a', 'p', 'i', 'g', 'a', 't', 'e', 'w', 'a', 'y'] := by
    simpa [str] using hapi
  cases hhp : a.has_path with
  | true =>
    have hty : a.resource_type ≠ [] := fun h => htyhp ⟨hhp, h⟩
    by_cases hrev : a.resource_revision = []
    · obtain ⟨c, ty2, hc⟩ := List.exists_cons_of_ne_nil hty
      have hcs := htyp c (by rw [hc]; simp)
      have hTail : parseTail (a.resource_type ++ '/' :: a.resource_id) =
          (a.resource_type, a.resource_id, a.resource_revision,
            a.has_path) := by
        have hA := altA_none_of_snd_fail htyp (hA2 hhp hrev)
        have hB : altB (a.resource_type ++ '/' :: a.resource_id) = none :=
          altB_none_of_slash htyp
        have hC : altC (a.resource_type ++ '/' :: a.resource_id) =
            some (a.resource_type, a.resource_id, [], true) := by
          rw [hc]
          exact altC_construct_no_slash hcs.2 (hc ▸ htyp)
        simp [parseTail, hA, hB, hC, hrev, hhp]
      have hbuild : a.build = arnString a.partition a.service a.region
          a.account (a.resource_type ++ '/' :: a.resource_id) := by
        simp [Arn.build, arnString, hapi2, hhp, hrev, hty, str,
          List.append_assoc]
      rw [hbuild]
      exact parse_construct hTail m1 m2 m3 m4
    · have hid := (hrevp hrev).2
      have hTail : parseTail (a.resource_type ++ '/' ::
          (a.resource_id ++ ':' :: a.resource_revision)) =
          (a.resource_type, a.resource_id, a.resource_revision,
            a.has_path) := by
        simp [parseTail, altA_construct htyp hid, hhp]
      have hbuild : a.build = arnString a.partition a.service a.region
          a.account (a.resource_type ++ '/' ::
            (a.resource_id ++ ':' :: a.resource_revision)) := by
        simp [Arn.build, arnString, hapi2, hhp, hrev, hty, str,
          List.append_assoc]
      rw [hbuild]
      exact parse_construct hTail m1 m2 m3 m4
  | false =>
    have hrev : a.resource_revision = [] := hnop hhp
    by_cases hty : a.resource_type = []
    · have hTail : parseTail a.resource_id =
          (a.resource_type, a.resource_id, a.resource_revision,
            a.has_path) := by
        rw [hD hty hhp, hty, hrev, hhp]
      have hbuild : a.build = arnString a.partition a.service a.region
          a.account a.resource_id := by
        simp [Arn.build, arnString, hapi2, hhp, hrev, hty, str,
          List.append_assoc]
      rw [hbuild]
      exact parse_construct hTail m1 m2 m3 m4
    · have hTail : parseTail (a.resource_type ++ ':' :: a.resource_id) =
          (a.resource_type, a.resource_id, a.resource_revision,
            a.has_path) := by
        simp [parseTail, altA_none_of_colon htyp, altB_construct htyp,
          hrev, hhp]
      have hbuild : a.build = arnString a.partition a.service a.region
          a.account (a.resource_type ++ ':' :: a.resource_id) := by
        simp [Arn.build, arnString, hapi2, hhp, hrev, hty, str,
          List.append_assoc]
      rw [hbuild]
      exact parse_construct hTail m1 m2 m3 m4

/-! ## Character classes, UTF-8 length, and trimming -/

theorem utf8Size_one_of_valid (c : Char) (h : validChar c = true) :
    c.utf8Size = 1 := by
  unfold Char.utf8Size
  rw [if_pos]
  unfold validChar isAsciiAlphanumeric at h
  rw [Bool.or_eq_true, Bool.or_eq_true, Bool.or_eq_true, Bool.and_eq_true,
    Bool.and_eq_true, Bool.and_eq_true] at h
  show c.val.toNat ≤ 127
  rcases h with ((⟨h1, h2⟩ | ⟨h1, h2⟩) | ⟨h1, h2⟩) | h
  · have h3 : c.val.toNat ≤ 122 := of_decide_eq_true h2
    omega
  · have h3 : c.val.toNat ≤ 90 := of_decide_eq_true h2
    omega
  · have h3 : c.val.toNat ≤ 57 := of_decide_eq_true h2
    omega
  · have hm : c ∈ ([':', '/', '+', '=', ',', '.', '@', '_', '*', '#',
        '-'] : Str) := by
      simpa [str] using h
    fin_cases hm <;> decide

theorem length_le_utf8Len (s : Str) : s.length ≤ utf8Len s := by
  induction s with
  | nil => simp [utf8Len]
  | cons c cs ih =>
    have := Char.utf8Size_pos c
    simp only [utf8Len, List.map_cons, List.sum_cons, List.length_cons] at ih ⊢
    omega

theorem utf8Len_eq_length_of_valid {s : Str}
    (h : ∀ c ∈ s, validChar c = true) : utf8Len s = s.length := by
  induction s with
  | nil => simp [utf8Len]
  | cons c cs ih =>
    have ih2 := ih (fun d hd => h d (by simp [hd]))
    simp only [utf8Len, List.map_cons, List.sum_cons, List.length_cons] at ih2 ⊢
    rw [utf8Size_one_of_valid c (h c (by simp)), ih2]
    omega

theorem not_whitespace_of_valid (c : Char) (h : validChar c = true) :
    isRustWhitespace c = false := by
  cases hw : isRustWhitespace c with
  | false => rfl
  | true =>
    exfalso
    have hm : c ∈ (['\t', '\n', '\x0b', '\x0c', '\r', ' ', '\u0085',
        '\u00A0', '\u1680', '\u2000', '\u2001', '\u2002', '\u2003',
        '\u2004', '\u2005', '\u2006', '\u2007', '\u2008', '\u2009',
        '\u200A', '\u2028', '\u2029', '\u202F', '\u205F',
        '\u3000'] : Str) := by
      simpa [isRustWhitespace] using hw
    fin_cases hm <;> exact absurd h (by decide)

theorem rustTrim_eq_self {s : Str}
    (h : ∀ c ∈ s, isRustWhitespace c = false) : rustTrim s = s := by
  have h1 : s.dropWhile isRustWhitespace = s :=
    List.dropWhile_eq_self_iff.mpr
      (fun hl => by
        have hm := h _ (List.getElem_mem hl)
        simp [List.get_eq_getElem, hm])
  have h2 : s.reverse.dropWhile isRustWhitespace = s.reverse :=
    List.dropWhile_eq_self_iff.mpr
      (fun hl => by
        have hm := h _ (List.mem_reverse.mp (List.getElem_mem hl))
        simp only [List.getElem_reverse] at hm
        simpa [List.get_eq_getElem] using hm)
  rw [rustTrim, h1, h2, List.reverse_reverse]

theorem rustTrim_eq_self_of_valid {s : Str}
    (h : ∀ c ∈ s, validChar c = true) : rustTrim s = s :=
  rustTrim_eq_self (fun c hc => not_whitespace_of_valid c (h c hc))

/-! ## Evaluation lemmas for `Arn::new` -/

theorem new_eq_of_checks {s : Str} (hlen : ¬2048 < utf8Len (rustTrim s))
    (hval : (rustTrim s).all validChar = true) :
    Arn.new s =
      match parse (rustTrim s) with
      | none => .error .ParseError
      | some a =>
        if !(a.region.all regionChar) then .error .BadCharacters
        else .ok a := by
  simp [Arn.new, hlen, hval]

theorem new_ok_inv {s : Str} {a : Arn} (h : Arn.new s = .ok a) :
    parse (rustTrim s) = some a ∧ a.region.all regionChar = true := by
  unfold Arn.new at h
  split at h
  · exact absurd h (by simp)
  · split at h
    · exact absurd h (by simp)
    · rename_i hval
      cases hp : parse (rustTrim s) with
      | none => simp only [hp] at h; exact absurd h (by simp)
      | some b =>
        simp only [hp] at h
        split at h
        · exact absurd h (by simp)
        · rename_i hreg
          obtain rfl := Except.ok.inj h
          exact ⟨rfl, by simpa using hreg⟩

/-! ## Concrete records used by witnesses and counterexamples -/

/-- The record parsed from `arn:aws:ecs:us-east-1:123:task/abc:1`
(tail form A: type/id:revision). -/
def arnEcsTaskRev : Arn :=
  { partition := str "aws", service := str "ecs", region := str "us-east-1",
    account := str "123", resource_type := str "task",
    resource_id := str "abc", resource_revision := str "1", has_path := true }

/-- The record parsed from `arn:aws:s3:::/y:` (tail form A with an empty
resource type and an empty revision). -/
def arnEmptyTypePath : Arn :=
  { partition := str "aws", service := str "s3", region := [], account := [],
    resource_type := [], resource_id := str "y", resource_revision := [],
    has_path := true }

/-- The record parsed from `arn::s3:::x`: its partition is empty. -/
def arnEmptyPartition : Arn :=
  { partition := [], service := str "s3", region := [], account := [],
    resource_type := [], resource_id := str "x", resource_revision := [],
    has_path := false }

/-- The record parsed from `arn:aws:s3:::abc123`. -/
def arnS3Bucket : Arn :=
  { partition := str "aws", service := str "s3", region := [], account := [],
    resource_type := [], resource_id := str "abc123",
    resource_revision := [], has_path := false }

/-! ## Claim theorems: parser -/

/-- The record parsed from `arn:aws:s3::::a:b` (tail form B with an empty
resource type and an id containing a colon). -/
def arnColonId : Arn :=
  { partition := str "aws", service := str "s3", region := [], account := [],
    resource_type := [], resource_id := str "a:b", resource_revision := [],
    has_path := false }

/-- The record parsed from `arn:aws:s3:::/t/a:b` (tail form C with a
leading slash and an id containing a colon). -/
def arnSlashTypeColonId : Arn :=
  { partition := str "aws", service := str "s3", region := [], account := [],
    resource_type := str "t", resource_id := str "a:b",
    resource_revision := [], has_path := true }

/-- The record parsed from `arn:aws:apigateway:us::t:y` (tail form B under
the service that `build` special-cases with a slash). -/
def arnApigatewayColon : Arn :=
  { partition := str "aws", service := str "apigateway", region := str "us",
    account := [], resource_type := str "t", resource_id := str "y",
    resource_revision := [], has_path := false }

/-- C1 counterexample: the round-trip law as stated is false.  The input
`arn:aws:s3:::/y:` parses (via tail form A with an empty resource type and
empty revision), but `build` of the resulting record yields
`arn:aws:s3::/y`, which does not parse at all.  The further three
conjuncts show one violating parsed record for each of the remaining
provisos of the amended law: an empty-type colon form whose id holds a
colon, a slash form whose id holds a colon before any slash, and the
`apigateway` service. -/
theorem c1_round_trip_counterexample :
    (parse (str "arn:aws:s3:::/y:") = some arnEmptyTypePath ∧
      parse arnEmptyTypePath.build = none) ∧
    (parse (str "arn:aws:s3::::a:b") = some arnColonId ∧
      parse arnColonId.build ≠ some arnColonId) ∧
    (parse (str "arn:aws:s3:::/t/a:b") = some arnSlashTypeColonId ∧
      parse arnSlashTypeColonId.build ≠ some arnSlashTypeColonId) ∧
    (parse (str "arn:aws:apigateway:us::t:y") = some arnApigatewayColon ∧
      parse arnApigatewayColon.build ≠ some arnApigatewayColon) :=
  ⟨⟨rfl, rfl⟩, ⟨rfl, by decide⟩, ⟨rfl, by decide⟩, ⟨rfl, by decide⟩⟩

/-- C1 witness: the amended round-trip law at the concrete record parsed
from `arn:aws:ecs:us-east-1:123:task/abc:1`. -/
theorem c1_round_trip_witness :
    parse arnEcsTaskRev.build = some arnEcsTaskRev :=
  c1_round_trip (str "arn:aws:ecs:us-east-1:123:task/abc:1") arnEcsTaskRev
    rfl (by decide) (by decide) (fun hty => absurd hty (by decide))
    (fun _ hrev => absurd hrev (by decide))

/-- C2: after the literal `arn:` prefix and the four colon-delimited fields,
the tail is resolved by trying the four alternatives A, B, C, D in this
fixed order; the first alternative that matches determines the parsed
fields, every alternative consumes the whole remaining input, and D always
succeeds. -/
theorem c2_tail_first_match (p sv rg ac t : Str)
    (hp : ':' ∉ p) (hsv : ':' ∉ sv) (hrg : ':' ∉ rg) (hac : ':' ∉ ac) :
    parse (arnString p sv rg ac t) =
      some { partition := p, service := sv, region := rg, account := ac,
             resource_type := (parseTail t).1,
             resource_id := (parseTail t).2.1,
             resource_revision := (parseTail t).2.2.1,
             has_path := (parseTail t).2.2.2 } ∧
    (∀ r, altA t = some r → parseTail t = r) ∧
    (altA t = none → ∀ r, altB t = some r → parseTail t = r) ∧
    (altA t = none → altB t = none → ∀ r, altC t = some r →
      parseTail t = r) ∧
    (altA t = none → altB t = none → altC t = none →
      parseTail t = altD t) := by
  refine ⟨parse_construct rfl hp hsv hrg hac, ?_, ?_, ?_, ?_⟩
  · intro r hr
    simp [parseTail, hr]
  · intro hA r hr
    simp [parseTail, hA, hr]
  · intro hA hB r hr
    simp [parseTail, hA, hB, hr]
  · intro hA hB hC
    simp [parseTail, hA, hB, hC]

/-- C2 witness: the first-match law instantiated on a concrete input. -/
theorem c2_tail_first_match_witness :
    parse (arnString (str "aws") (str "ecs") (str "us-east-1") (str "123")
      (str "task/abc")) =
      some { partition := str "aws", service := str "ecs",
             region := str "us-east-1", account := str "123",
             resource_type := (parseTail (str "task/abc")).1,
             resource_id := (parseTail (str "task/abc")).2.1,
             resource_revision := (parseTail (str "task/abc")).2.2.1,
             has_path := (parseTail (str "task/abc")).2.2.2 } :=
  (c2_tail_first_match (str "aws") (str "ecs") (str "us-east-1")
    (str "123") (str "task/abc") (by decide) (by decide) (by decide)
    (by decide)).1

/-- C3 counterexample: the grammar does not force a non-empty partition.
`arn::s3:::x` is accepted in full (through `Arn::new`) and its partition
field is the empty string. -/
theorem c3_partition_counterexample :
    Arn.new (str "arn::s3:::x") = .ok arnEmptyPartition ∧
      arnEmptyPartition.partition = [] := ⟨rfl, rfl⟩

/-- C3 (amended): what the grammar does enforce about the partition of any
accepted input is that it contains no colon; it may be empty, and no
separate validation step constrains it. -/
theorem c3_partition_colon_free (s : Str) (a : Arn)
    (h : Arn.new s = .ok a) : ':' ∉ a.partition := by
  obtain ⟨hp, -⟩ := new_ok_inv h
  obtain ⟨t, -, m1, -⟩ := parse_inv hp
  exact m1

/-- C3 witness: the amended claim at a concrete accepted input. -/
theorem c3_partition_colon_free_witness : ':' ∉ arnS3Bucket.partition :=
  c3_partition_colon_free (str "arn:aws:s3:::abc123") arnS3Bucket rfl

/-- C9: only tail form A binds a revision, so a successfully parsed record
with a non-empty resource revision has the path flag set; equivalently a
record without the path flag has an empty revision. -/
theorem c9_revision_requires_path (s : Str) (a : Arn)
    (h : parse s = some a) :
    (a.resource_revision ≠ [] → a.has_path = true) ∧
      (a.has_path = false → a.resource_revision = []) := by
  obtain ⟨t, -, -, -, -, -, hpeq⟩ := parse_inv h
  obtain ⟨-, hrevp, hnop⟩ := parseTail_inv hpeq
  exact ⟨fun hr => (hrevp hr).1, hnop⟩

/-- C9 witness: the invariant at a concrete parsed record. -/
theorem c9_revision_requires_path_witness :
    (arnEcsTaskRev.resource_revision ≠ [] → arnEcsTaskRev.has_path = true) ∧
      (arnEcsTaskRev.has_path = false →
        arnEcsTaskRev.resource_revision = []) :=
  c9_revision_requires_path (str "arn:aws:ecs:us-east-1:123:task/abc:1")
    arnEcsTaskRev rfl

/-- C10: every tail form delimits the resource type with a combinator that
stops at both `:` and `/` (or leaves it empty), so the resource type of a
successfully parsed record contains neither character. -/
theorem c10_resource_type_free_of_delimiters (s : Str) (a : Arn)
    (h : parse s = some a) :
    ':' ∉ a.resource_type ∧ '/' ∉ a.resource_type := by
  obtain ⟨t, -, -, -, -, -, hpeq⟩ := parse_inv h
  obtain ⟨htyp, -, -⟩ := parseTail_inv hpeq
  exact ⟨fun hm => (htyp _ hm).1 rfl, fun hm => (htyp _ hm).2 rfl⟩

/-- C10 witness: the invariant at a concrete parsed record. -/
theorem c10_resource_type_free_of_delimiters_witness :
    ':' ∉ arnEcsTaskRev.resource_type ∧ '/' ∉ arnEcsTaskRev.resource_type :=
  c10_resource_type_free_of_delimiters
    (str "arn:aws:ecs:us-east-1:123:task/abc:1") arnEcsTaskRev rfl

/-- The record parsed from `arn:aws:s3:a.b::x`: its region contains a dot. -/
def arnDotRegion : Arn :=
  { partition := str "aws", service := str "s3", region := str "a.b",
    account := [], resource_type := [], resource_id := str "x",
    resource_revision := [], has_path := false }

/-- C4 counterexample: a 2049-character input need not fail with `TooLong`,
because trimming happens first.  2049 spaces trim to the empty string,
which then fails with `ParseError`. -/
theorem c4_length_counterexample :
    (List.replicate 2049 ' ' : Str).length = 2049 ∧
      Arn.new (List.replicate 2049 ' ') = .error .ParseError := by
  constructor
  · rw [List.length_replicate]
  · have hd : (List.replicate 2049 ' ' : Str).dropWhile isRustWhitespace
        = [] :=
      List.dropWhile_eq_nil_iff.mpr (fun x hx => by
        rw [List.eq_of_mem_replicate hx]; decide)
    have h1 : rustTrim (List.replicate 2049 ' ') = [] := by
      unfold rustTrim
      rw [hd]
      rfl
    unfold Arn.new
    rw [h1]
    rfl

/-- C4 (amended): a 2049-character input equal to its own trim always fails
with `TooLong`; a 2048-character input over the valid alphabet is never
rejected for length, and its outcome is decided purely by the structural
parse (and then the region guard). -/
theorem c4_length_boundary :
    (∀ s : Str, rustTrim s = s → s.length = 2049 →
      Arn.new s = .error .TooLong) ∧
    (∀ s : Str, s.length = 2048 → (∀ c ∈ s, validChar c = true) →
      Arn.new s ≠ .error .TooLong ∧
      (parse s = none → Arn.new s = .error .ParseError) ∧
      (∀ a, parse s = some a →
        Arn.new s = .ok a ∨ Arn.new s = .error .BadCharacters)) := by
  constructor
  · intro s htrim hlen
    have hlt : 2048 < utf8Len s := by
      have := length_le_utf8Len s
      omega
    unfold Arn.new
    rw [htrim, if_pos hlt]
  · intro s hlen hval
    have htrim : rustTrim s = s := rustTrim_eq_self_of_valid hval
    have hlen2 : utf8Len s = 2048 := by
      rw [utf8Len_eq_length_of_valid hval, hlen]
    have hnot : ¬2048 < utf8Len s := by omega
    have hall : s.all validChar = true := List.all_eq_true.mpr hval
    have hnone : parse s = none → Arn.new s = .error .ParseError := by
      intro hp
      unfold Arn.new
      rw [htrim, if_neg hnot, if_neg (by simp [hall])]
      simp only [hp]
    have hsome : ∀ a, parse s = some a →
        Arn.new s = if !(a.region.all regionChar) then
          Except.error Error.BadCharacters else Except.ok a := by
      intro a hp
      unfold Arn.new
      rw [htrim, if_neg hnot, if_neg (by simp [hall])]
      simp only [hp]
    refine ⟨?_, hnone, ?_⟩
    · cases hp : parse s with
      | none =>
        rw [hnone hp]
        simp
      | some a =>
        rw [hsome a hp]
        by_cases hreg : (!(a.region.all regionChar)) = true
        · rw [if_pos hreg]
          simp
        · rw [if_neg hreg]
          simp
    · intro a hp
      rw [hsome a hp]
      by_cases hreg : (!(a.region.all regionChar)) = true
      · rw [if_pos hreg]
        right
        rfl
      · rw [if_neg hreg]
        left
        rfl

/-- C4 witness: both halves of the length boundary at concrete inputs. -/
theorem c4_length_boundary_witness :
    Arn.new (List.replicate 2049 'a') = .error .TooLong ∧
      Arn.new (List.replicate 2048 'a') ≠ .error .TooLong :=
  ⟨c4_length_boundary.1 (List.replicate 2049 'a')
      (rustTrim_eq_self_of_valid (fun c hc => by
        rw [List.eq_of_mem_replicate hc]; rfl))
      (by rw [List.length_replicate]),
   (c4_length_boundary.2 (List.replicate 2048 'a')
      (by rw [List.length_replicate])
      (fun c hc => by rw [List.eq_of_mem_replicate hc]; rfl)).1⟩

/-- C5 counterexample: a character outside the valid alphabet does not
always cause `BadCharacters`: a leading space is trimmed away, so
` arn:aws:s3:::abc123` parses successfully. -/
theorem c5_bad_characters_counterexample :
    validChar ' ' = false ∧ (' ' ∈ str " arn:aws:s3:::abc123") ∧
      Arn.new (str " arn:aws:s3:::abc123") = .ok arnS3Bucket :=
  ⟨rfl, by decide, rfl⟩

/-- C5 (amended): any character outside `[A-Za-z0-9:/+=,.@_*#-]` surviving
the trim, in an input whose trimmed form is within the length limit,
causes `BadCharacters`, regardless of the rest of the string. -/
theorem c5_bad_characters (s : Str) (c : Char) (hc : c ∈ rustTrim s)
    (hbad : validChar c = false) (hlen : ¬2048 < utf8Len (rustTrim s)) :
    Arn.new s = .error .BadCharacters := by
  have hall : (rustTrim s).all validChar = false :=
    List.all_eq_false.mpr ⟨c, hc, by simp [hbad]⟩
  unfold Arn.new
  rw [if_neg hlen, if_pos (by simp [hall])]

/-- C5 witness: the amended claim at a concrete input. -/
theorem c5_bad_characters_witness :
    Arn.new (str "!") = .error .BadCharacters :=
  c5_bad_characters (str "!") '!' (by decide) (by decide) (by decide)

/-- C6: an otherwise well-formed identifier (within the length limit, over
the valid alphabet, structurally parseable) whose region contains any
character other than ASCII alphanumerics and hyphens fails with
`BadCharacters` instead of parsing successfully. -/
theorem c6_region_guard (s : Str) (a : Arn) (c : Char)
    (hlen : ¬2048 < utf8Len (rustTrim s))
    (hval : (rustTrim s).all validChar = true)
    (hp : parse (rustTrim s) = some a)
    (hc : c ∈ a.region) (hbad : regionChar c = false) :
    Arn.new s = .error .BadCharacters := by
  have hreg : a.region.all regionChar = false :=
    List.all_eq_false.mpr ⟨c, hc, by simp [hbad]⟩
  unfold Arn.new
  rw [if_neg hlen, if_neg (by simp [hval])]
  simp only [hp]
  rw [if_pos (by simp [hreg])]

/-- C6 witness: the region guard fires on `arn:aws:s3:a.b::x`, whose
region field is `a.b`. -/
theorem c6_region_guard_witness :
    Arn.new (str "arn:aws:s3:a.b::x") = .error .BadCharacters :=
  c6_region_guard (str "arn:aws:s3:a.b::x") arnDotRegion '.' (by decide)
    (by decide) rfl (by decide) rfl

/-! ## Lemmas about the split helpers -/

theorem splitOnceChar_eq_some_left {c : Char} {t r : Str} (h : c ∉ t) :
    splitOnceChar c (t ++ c :: r) = some (t, r) := by
  induction t with
  | nil => simp [splitOnceChar]
  | cons d ds ih =>
    have hd : (d == c) = false := by
      simp only [beq_eq_false_iff_ne]
      rintro rfl
      exact h (by simp)
    have ih2 := ih (fun hm => h (by simp [hm]))
    simp [splitOnceChar, hd, ih2]

theorem splitOnceChar_eq_none {c : Char} {s : Str} (h : c ∉ s) :
    splitOnceChar c s = none := by
  induction s with
  | nil => simp [splitOnceChar]
  | cons d ds ih =>
    have hd : (d == c) = false := by
      simp only [beq_eq_false_iff_ne]
      rintro rfl
      exact h (by simp)
    have ih2 := ih (fun hm => h (by simp [hm]))
    simp [splitOnceChar, hd, ih2]

theorem rsplitOnceChar_eq_some {c : Char} {pre post : Str}
    (hpost : c ∉ post) :
    rsplitOnceChar c (pre ++ c :: post) = some (pre, post) := by
  have hrev : (pre ++ c :: post).reverse =
      post.reverse ++ c :: pre.reverse := by
    simp
  have hs : splitOnceChar c (post.reverse ++ c :: pre.reverse) =
      some (post.reverse, pre.reverse) :=
    splitOnceChar_eq_some_left (by simpa using hpost)
  simp [rsplitOnceChar, hrev, hs]

theorem rsplitOnceChar_eq_none {c : Char} {s : Str} (h : c ∉ s) :
    rsplitOnceChar c s = none := by
  have hs : splitOnceChar c s.reverse = none :=
    splitOnceChar_eq_none (by simpa using h)
  simp [rsplitOnceChar, hs]

/-! ## Claim theorems: link dispatcher -/

/-- Splitting one link of the dispatch chain: a branch either yields no
link or its key belongs to the table. -/
theorem ite_or {P : Prop} {c : Prop} [Decidable c] {x y : Option Str}
    (h1 : c → x = none ∨ P) (h2 : y = none ∨ P) :
    (if c then x else y) = none ∨ P := by
  split
  · exact h1 (by assumption)
  · exact h2

set_option maxHeartbeats 1600000 in
/-- Every record either gets no link or its `(service, resource_type)` pair
is one of the dispatch table keys. -/
theorem link_none_or_mem (a : Arn) :
    a.link = none ∨ (a.service, a.resource_type) ∈ dispatchKeys := by
  unfold Arn.link
  exact
    (ite_or (fun h => Or.inr (by rw [h.1, h.2]; decide))
    (ite_or (fun h => Or.inr (by rw [h.1, h.2]; decide))
    (ite_or (fun h => Or.inr (by rw [h.1, h.2]; decide))
    (ite_or (fun h => Or.inr (by rw [h.1, h.2]; decide))
    (ite_or (fun h => Or.inr (by rw [h.1, h.2]; decide))
    (ite_or (fun h => Or.inr (by rw [h.1, h.2]; decide))
    (ite_or (fun h => Or.inr (by rw [h.1, h.2]; decide))
    (ite_or (fun h => Or.inr (by rw [h.1, h.2]; decide))
    (ite_or (fun h => Or.inr (by rw [h.1, h.2]; decide))
    (ite_or (fun h => Or.inr (by rw [h.1, h.2]; decide))
    (ite_or (fun h => Or.inr (by rw [h.1, h.2]; decide))
    (ite_or (fun h => Or.inr (by rw [h.1, h.2]; decide))
    (ite_or (fun h => Or.inr (by rw [h.1, h.2]; decide))
    (ite_or (fun h => Or.inr (by rw [h.1, h.2]; decide))
    (ite_or (fun h => Or.inr (by rw [h.1, h.2]; decide))
    (ite_or (fun h => Or.inr (by rw [h.1, h.2]; decide))
    (ite_or (fun h => Or.inr (by rw [h.1, h.2]; decide))
    (ite_or (fun h => Or.inr (by rw [h.1, h.2]; decide))
    (ite_or (fun h => Or.inr (by rw [h.1, h.2]; decide))
    (ite_or (fun h => Or.inr (by rw [h.1, h.2]; decide))
    (ite_or (fun h => Or.inr (by rw [h.1, h.2]; decide))
    (ite_or (fun h => Or.inr (by rw [h.1, h.2]; decide))
    (ite_or (fun h => Or.inr (by rw [h.1, h.2]; decide))
    (ite_or (fun h => Or.inr (by rw [h.1, h.2]; decide))
    (ite_or (fun h => Or.inr (by rw [h.1, h.2]; decide))
    (ite_or (fun h => Or.inr (by rw [h.1, h.2]; decide))
    (ite_or (fun h => Or.inr (by rw [h.1, h.2]; decide))
    (ite_or (fun h => Or.inr (by rw [h.1, h.2]; decide))
    (ite_or (fun h => Or.inr (by rw [h.1, h.2]; decide))
    (ite_or (fun h => Or.inr (by rw [h.1, h.2]; decide))
    (ite_or (fun h => Or.inr (by rw [h.1, h.2]; decide))
    (ite_or (fun h => Or.inr (by rw [h.1, h.2]; decide))
    (ite_or (fun h => Or.inr (by rw [h.1, h.2]; decide))
    (ite_or (fun h => Or.inr (by rw [h.1, h.2]; decide))
    (ite_or (fun h => Or.inr (by rw [h.1, h.2]; decide))
    (ite_or (fun h => Or.inr (by rw [h.1, h.2]; decide))
    (ite_or (fun h => Or.inr (by rw [h.1, h.2]; decide))
    (ite_or (fun h => Or.inr (by rw [h.1, h.2]; decide))
    (ite_or (fun h => Or.inr (by rw [h.1, h.2]; decide))
    (ite_or (fun h => Or.inr (by rw [h.1, h.2]; decide))
    (ite_or (fun h => Or.inr (by rw [h.1, h.2]; decide))
    (ite_or (fun h => Or.inr (by rw [h.1, h.2]; decide))
    (ite_or (fun h => Or.inr (by rw [h.1, h.2]; decide))
    (ite_or (fun h => Or.inr (by rw [h.1, h.2]; decide))
    (ite_or (fun h => Or.inr (by rw [h.1, h.2]; decide))
    (ite_or (fun h => Or.inr (by rw [h.1, h.2]; decide))
    (ite_or (fun h => Or.inr (by rw [h.1, h.2]; decide))
    (ite_or (fun h => Or.inr (by rw [h.1, h.2]; decide))
    (ite_or (fun h => Or.inr (by rw [h.1, h.2]; decide))
    (ite_or (fun h => Or.inr (by rw [h.1, h.2]; decide))
    (ite_or (fun h => Or.inr (by rw [h.1, h.2]; decide))
    (ite_or (fun h => Or.inr (by rw [h.1, h.2]; decide))
    (ite_or (fun h => Or.inr (by rw [h.1, h.2]; decide))
    (ite_or (fun h => Or.inr (by rw [h.1, h.2]; decide))
    (ite_or (fun h => Or.inr (by rw [h.1, h.2]; decide))
    (ite_or (fun h => Or.inr (by rw [h.1, h.2]; decide))
    (Or.inl rfl)))))))))))))))))))))))))))))))))))))))))))))))))))))))))

/-- The record parsed from `arn:aws:does-not-exist:::example`. -/
def arnDoesNotExist : Arn :=
  { partition := str "aws", service := str "does-not-exist", region := [],
    account := [], resource_type := [], resource_id := str "example",
    resource_revision := [], has_path := false }

/-- C7: a successfully parsed record whose `(service, resource_type)` pair
has no entry in the dispatch table gets `none` from `link` (never an
error); the one-shot composition maps that outcome to the distinct `NoLink`
error only at the outer layer; and `arn:aws:does-not-exist:::example`
parses successfully yet yields `NoLink` from the one-shot function. -/
theorem c7_no_link :
    (∀ a : Arn, (a.service, a.resource_type) ∉ dispatchKeys →
      a.link = none) ∧
    (∀ (s : Str) (a : Arn), Arn.new s = .ok a → a.link = none →
      arnToLink s = .error .NoLink) ∧
    Arn.new (str "arn:aws:does-not-exist:::example") =
      .ok arnDoesNotExist ∧
    arnToLink (str "arn:aws:does-not-exist:::example") =
      .error .NoLink := by
  refine ⟨?_, ?_, rfl, rfl⟩
  · intro a h
    rcases link_none_or_mem a with hn | hm
    · exact hn
    · exact absurd hm h
  · intro s a hnew hlink
    unfold arnToLink
    simp only [hnew, hlink]

/-- C7 witness: the no-entry record gets no link. -/
theorem c7_no_link_witness : arnDoesNotExist.link = none :=
  c7_no_link.1 arnDoesNotExist (by decide)

/-- The record parsed from `arn:aws:ecs:us-east-1:123:task/mycluster/abc`. -/
def arnEcsTaskPath : Arn :=
  { partition := str "aws", service := str "ecs", region := str "us-east-1",
    account := str "123", resource_type := str "task",
    resource_id := str "mycluster/abc", resource_revision := [],
    has_path := true }

/-- C8: the `("ecs", "task")` rule splits the resource id on its last slash
only: the text before that slash becomes the cluster-path component of the
URL and the text after it the task-id component; with no slash at all both
components fall back to the empty string. -/
theorem c8_ecs_task_split (a : Arn) (d : Str)
    (hsv : a.service = str "ecs") (hty : a.resource_type = str "task")
    (hd : a.domain = some d) :
    (∀ pre post : Str, a.resource_id = pre ++ '/' :: post → '/' ∉ post →
      a.link = some (str "https://" ++ a.region ++ str "." ++ d ++
        str "/ecs/v2/clusters/" ++ pre ++ str "/tasks/" ++ post ++
        str "?region=" ++ a.region)) ∧
    ('/' ∉ a.resource_id →
      a.link = some (str "https://" ++ a.region ++ str "." ++ d ++
        str "/ecs/v2/clusters/" ++ ([] : Str) ++ str "/tasks/" ++
        ([] : Str) ++ str "?region=" ++ a.region)) := by
  have harm : a.link =
      (let pair := (rsplitOnceChar '/' a.resource_id).getD ([], [])
       do
         let d2 ← a.domain
         some (str "https://" ++ a.region ++ str "." ++ d2 ++
           str "/ecs/v2/clusters/" ++ pair.1 ++ str "/tasks/" ++ pair.2 ++
           str "?region=" ++ a.region)) := by
    unfold Arn.link
    rw [hsv, hty]
    rfl
  constructor
  · intro pre post hid hpost
    have hr : rsplitOnceChar '/' a.resource_id = some (pre, post) := by
      rw [hid]
      exact rsplitOnceChar_eq_some (by simpa using hpost)
    rw [harm, hr]
    simp [hd]
  · intro hns
    have hr : rsplitOnceChar '/' a.resource_id = none :=
      rsplitOnceChar_eq_none hns
    rw [harm, hr]
    simp [hd]

/-- C8 witness: the rule at a concrete two-segment resource id. -/
theorem c8_ecs_task_split_witness :
    arnEcsTaskPath.link = some (str "https://" ++ str "us-east-1" ++
      str "." ++ str "console.aws.amazon.com" ++ str "/ecs/v2/clusters/" ++
      str "mycluster" ++ str "/tasks/" ++ str "abc" ++ str "?region=" ++
      str "us-east-1") :=
  (c8_ecs_task_split arnEcsTaskPath (str "console.aws.amazon.com") rfl rfl
    rfl).1 (str "mycluster") (str "abc") rfl (by decide)

end Link2Aws
